import Mathlib

/-!
Shallow embedding of the concurrent terminal-spinner subsystem of
`src/spinner.py` (classes `SpinnerDisplay`, `SpinnerController`, `Spinner`,
`SpinnerPool`), together with theorems settling the frozen claims about it.

Conventions of the embedding:
* Python dicts that preserve insertion order (`SpinnerDisplay._lines`,
  `SpinnerPool._jobs`) are modelled as association lists with
  replace-in-place assignment (`setLine`).
* `itertools.count()` is modelled by a `nextId : Nat` field.
* The impure reads of `time.time()` / the caller-supplied elapsed supplier
  are modelled by an explicit `reading : ℚ` argument threaded into the
  operations that perform such a read; Python floats are modelled as ℚ.
* Terminal output is modelled as the list of line strings a redraw writes;
  operations return that output next to the new state, so "triggers a
  redraw" is observable.
-/

namespace ProtoUtils

/-- ANSI color constants from `spinner.py`. -/
def CYAN : String := "\x1b[36m"

/-- ANSI bold constant from `spinner.py`. -/
def BOLD : String := "\x1b[1m"

/-- ANSI dim constant from `spinner.py`. -/
def DIM : String := "\x1b[2m"

/-- ANSI green constant from `spinner.py`. -/
def GREEN : String := "\x1b[32m"

/-- ANSI red constant from `spinner.py`. -/
def RED : String := "\x1b[31m"

/-- ANSI reset constant from `spinner.py`. -/
def RESET : String := "\x1b[0m"

/-- The cyclic glyph sequence `FRAMES` from `spinner.py`. -/
def FRAMES : List String := ["⣷", "⣯", "⣟", "⡿", "⢿", "⣻", "⣽", "⣾"]

/-! ### Decimal rendering, modelling Python's f-string `d` format -/

/-- Python's `f"{n:02d}"`: decimal rendering left-padded with `0` to width 2. -/
def pad2 (n : Nat) : String := if n < 10 then "0" ++ Nat.repr n else Nat.repr n

/-! ### Elapsed-time formatting (`Spinner._format_elapsed`) -/

/-- Python's `int(q)` on a real number: truncation toward zero. -/
def pythonInt (q : ℚ) : Int := if 0 ≤ q then ⌊q⌋ else ⌈q⌉

/-- The `total_seconds = max(0, int(seconds))` step of
`Spinner._format_elapsed`, landing in ℕ since the result is non-negative. -/
def elapsedSeconds (seconds : ℚ) : Nat := (max 0 (pythonInt seconds)).toNat

/-- The divmod-and-render tail of `Spinner._format_elapsed`: `HH:MM:SS`
when the hour count is nonzero, `MM:SS` otherwise. -/
def formatSeconds (totalSeconds : Nat) : String :=
  let hours := totalSeconds / 3600
  let remainder := totalSeconds % 3600
  let minutes := remainder / 60
  let secs := remainder % 60
  if hours ≠ 0 then pad2 hours ++ ":" ++ pad2 minutes ++ ":" ++ pad2 secs
  else pad2 minutes ++ ":" ++ pad2 secs

/-- `Spinner._format_elapsed`: clamp and truncate the raw seconds, then
render. -/
def formatElapsed (seconds : ℚ) : String :=
  formatSeconds (elapsedSeconds seconds)

/-! ### The display (`SpinnerDisplay`) -/

/-- The `_lines` dict: an insertion-ordered association list. -/
abbrev LineMap := List (Nat × String)

/-- Dict lookup on the line map. -/
def lookupLine : LineMap → Nat → Option String
  | [], _ => none
  | (k, v) :: rest, sid => if k = sid then some v else lookupLine rest sid

/-- Dict assignment `m[k] = v`: replace in place when the key is present,
append otherwise (Python dicts preserve insertion order). -/
def setLine : LineMap → Nat → String → LineMap
  | [], k, v => [(k, v)]
  | (k2, v2) :: rest, k, v =>
      if k2 = k then (k, v) :: rest else (k2, v2) :: setLine rest k v

/-- The mutable state of `SpinnerDisplay`: order list, line map, the line
count last physically written, the id counter and the active count. -/
structure DisplayState where
  order : List Nat
  lines : LineMap
  lastLineCount : Nat
  nextId : Nat
  activeCount : Nat
deriving DecidableEq, Repr

/-- The state `SpinnerDisplay.__init__` produces. -/
def DisplayState.emptyD : DisplayState :=
  { order := [], lines := [], lastLineCount := 0, nextId := 0, activeCount := 0 }

/-- The block of text lines `_render_locked` writes: the stored line of every
handle in registration order. (Under the key-set invariant every lookup
succeeds; the `getD` default never fires on reachable states.) -/
def renderedLines (s : DisplayState) : List String :=
  s.order.map (fun i => (lookupLine s.lines i).getD "")

/-- `SpinnerDisplay._render_locked`: write the block and record its length. -/
def renderLocked (s : DisplayState) : DisplayState × List String :=
  let ls := renderedLines s
  ({ s with lastLineCount := ls.length }, ls)

/-- `SpinnerDisplay.register`: draw a fresh id, append it to the order list,
store the initial line, bump the active count, redraw. Returns the new
state, the returned handle, and the redrawn block. -/
def DisplayState.register (s : DisplayState) (initialLine : String) :
    DisplayState × Nat × List String :=
  let sid := s.nextId
  let s1 : DisplayState :=
    { s with
      nextId := s.nextId + 1
      order := s.order ++ [sid]
      lines := setLine s.lines sid initialLine
      activeCount := s.activeCount + 1 }
  let (s2, out) := renderLocked s1
  (s2, sid, out)

/-- `SpinnerDisplay.update`: replace the stored line and redraw when the
handle is in the line map, return unchanged (no redraw) otherwise. The
second component is `some block` exactly when a redraw happened. -/
def DisplayState.update (s : DisplayState) (sid : Nat) (line : String) :
    DisplayState × Option (List String) :=
  match lookupLine s.lines sid with
  | none => (s, none)
  | some _ =>
    let s1 : DisplayState := { s with lines := setLine s.lines sid line }
    let (s2, out) := renderLocked s1
    (s2, some out)

/-- `SpinnerDisplay.release`: when the handle is in the line map, decrement
the active count (clamped at zero, as `max(0, n-1)`); when the count
reaches zero, clear the order list and the line map and reset the
last-written line count. -/
def DisplayState.release (s : DisplayState) (sid : Nat) : DisplayState :=
  match lookupLine s.lines sid with
  | none => s
  | some _ =>
    let ac := s.activeCount - 1
    if ac = 0 then
      { s with activeCount := 0, order := [], lines := [], lastLineCount := 0 }
    else
      { s with activeCount := ac }

/-- One public display call, for reasoning over call sequences. -/
inductive DisplayOp
  | register (line : String)
  | update (sid : Nat) (line : String)
  | release (sid : Nat)
deriving DecidableEq, Repr

/-- The state transition of one display call. -/
def applyOp (s : DisplayState) : DisplayOp → DisplayState
  | .register line => (s.register line).1
  | .update sid line => (s.update sid line).1
  | .release sid => s.release sid

/-- Run a sequence of display calls. -/
def applyOps (s : DisplayState) (ops : List DisplayOp) : DisplayState :=
  ops.foldl applyOp s

/-- The handles returned by the `register` calls of a call sequence, in call
order. -/
def registerIds (s : DisplayState) : List DisplayOp → List Nat
  | [] => []
  | op :: rest =>
    match op with
    | .register line => (s.register line).2.1 :: registerIds (applyOp s op) rest
    | _ => registerIds (applyOp s op) rest

/-! ### The spinner (`Spinner`) together with its display and controller -/

/-- The mutable state of one `Spinner`: label text, message, whether a
caller-supplied elapsed supplier was given, the captured start time (set by
`start` when no supplier was given), the `_stop` event, the frame index,
the display handle (absent before start / after stop), and the Python
object identity `id(self)` under which the controller keys it. -/
structure SpinnerState where
  text : String
  msg : String
  hasSupplier : Bool
  startTime : Option ℚ
  stopFlag : Bool
  idx : Nat
  displayId : Option Nat
  sid : Nat
deriving DecidableEq, Repr

/-- `Spinner._current_elapsed`; `reading` is the value the impure read
returns (the supplier's result when one was given, `time.time()`
otherwise). -/
def SpinnerState.currentElapsed (sp : SpinnerState) (reading : ℚ) : ℚ :=
  if sp.hasSupplier then max 0 reading
  else
    match sp.startTime with
    | none => 0
    | some t => reading - t

/-- `Spinner._format_running_line`. -/
def formatRunningLine (sp : SpinnerState) (frame elapsedStr : String) : String :=
  CYAN ++ sp.msg ++ RESET ++ BOLD ++ sp.text ++ RESET ++ " " ++
    DIM ++ frame ++ " [" ++ elapsedStr ++ "]" ++ RESET

/-- `Spinner._format_final_line`. -/
def formatFinalLine (sp : SpinnerState) (icon elapsedStr : String) : String :=
  CYAN ++ sp.msg ++ RESET ++ BOLD ++ sp.text ++ RESET ++ " " ++
    icon ++ " " ++ DIM ++ "[" ++ elapsedStr ++ "]" ++ RESET

/-- The status icon chosen in `Spinner.stop`. -/
def statusIcon (success : Bool) : String :=
  if success then GREEN ++ "✓" ++ RESET else RED ++ "✗" ++ RESET

/-- `SpinnerController.add`: dict insert keyed by object identity (present
keys are left in place, the value overwrite is invisible here). -/
def controllerAdd (ctrl : List Nat) (sid : Nat) : List Nat :=
  if sid ∈ ctrl then ctrl else ctrl ++ [sid]

/-- `SpinnerController.remove`: `dict.pop(key, None)`, a no-op on an absent
key. -/
def controllerRemove (ctrl : List Nat) (sid : Nat) : List Nat :=
  ctrl.erase sid

/-- A spinner together with the display and controller state it acts on. -/
structure SpinnerWorld where
  spinner : SpinnerState
  display : DisplayState
  controller : List Nat
deriving DecidableEq, Repr

/-- `Spinner.start`: capture the start time when no supplier was given,
format and register the initial line, advance the frame index, add the
spinner to the controller. -/
def SpinnerWorld.start (w : SpinnerWorld) (reading : ℚ) : SpinnerWorld :=
  let sp0 :=
    if w.spinner.hasSupplier then w.spinner
    else { w.spinner with startTime := some reading }
  let elapsedStr := formatElapsed (sp0.currentElapsed reading)
  let frame := FRAMES.getD (sp0.idx % FRAMES.length) ""
  let line := formatRunningLine sp0 frame elapsedStr
  let (d1, did, _) := w.display.register line
  { spinner := { sp0 with displayId := some did, idx := sp0.idx + 1 }
    display := d1
    controller := controllerAdd w.controller sp0.sid }

/-- `Spinner._render_tick`: a no-op when never started or stopped; otherwise
take the current frame, advance the index, format the running line from the
freshly read elapsed time and push it to the display. The second component
is the line pushed, when one was. -/
def SpinnerWorld.renderTick (w : SpinnerWorld) (reading : ℚ) :
    SpinnerWorld × Option String :=
  match w.spinner.displayId with
  | none => (w, none)
  | some did =>
    if w.spinner.stopFlag then (w, none)
    else
      let frame := FRAMES.getD (w.spinner.idx % FRAMES.length) ""
      let sp := { w.spinner with idx := w.spinner.idx + 1 }
      let line := formatRunningLine w.spinner frame
        (formatElapsed (w.spinner.currentElapsed reading))
      ({ w with spinner := sp, display := (w.display.update did line).1 }, some line)

/-- `Spinner.stop`: set the stop event, remove from the controller, compute
the final elapsed time (the caller-supplied value takes precedence over a
fresh read of the internal clock), and when a display handle is held push
the final line, release the handle and drop it. The second component is
the final line pushed, when one was. -/
def SpinnerWorld.stop (w : SpinnerWorld) (success : Bool) (elapsedArg : Option ℚ)
    (reading : ℚ) : SpinnerWorld × Option String :=
  let sp := { w.spinner with stopFlag := true }
  let ctrl := controllerRemove w.controller sp.sid
  let e :=
    match elapsedArg with
    | some e => e
    | none => sp.currentElapsed reading
  let line := formatFinalLine sp (statusIcon success) (formatElapsed e)
  match sp.displayId with
  | none => ({ spinner := sp, display := w.display, controller := ctrl }, none)
  | some did =>
    let d1 := (w.display.update did line).1
    let d2 := d1.release did
    ({ spinner := { sp with displayId := none }, display := d2, controller := ctrl },
      some line)

/-! ### The pool (`SpinnerPool`) -/

/-- A captured Python exception: its class name and its `str(...)`. -/
structure PyExc where
  className : String
  txt : String
deriving DecidableEq, Repr

/-- The `error` field of a `JobResult`: keys `type` and `message`. -/
structure ErrInfo where
  type : String
  message : String
deriving DecidableEq, Repr

/-- A `JobResult` dict: keys `ok`, `result`, `error`. -/
structure JobResult (β : Type) where
  ok : Bool
  result : Option β
  error : Option ErrInfo
deriving DecidableEq, Repr

/-- A job's callable evaluated on its positional and keyword arguments:
either a normal return value or a raised exception. -/
abbrev JobFn (α β : Type) := List α → List (String × α) → Except PyExc β

/-- The `runner` closure built in `SpinnerPool.submit`: call
`fn(*args, **kwargs)`; on normal return record success and the value, on a
raised exception record the class name and message while `result_value`
stays `None`. (The runner also stops the job's spinner; that effect is the
subject of the `SpinnerWorld.stop` model above.) -/
def runJob (fn : JobFn α β) (args : List α) (kwargs : List (String × α)) :
    JobResult β :=
  match fn args kwargs with
  | .ok v => { ok := true, result := some v, error := none }
  | .error e =>
      { ok := false, result := none
        error := some { type := e.className, message := e.txt } }

/-- The errors `SpinnerPool.submit` raises synchronously; the duplicate-label
case is the `ValueError("Job with label ... already submitted")` raise. -/
inductive PoolError
  | duplicateLabel (label : String)
deriving DecidableEq, Repr

/-- What a call to `submit` hands back: the raised error, or the future of
the scheduled runner (modelled by the result it resolves to). -/
inductive SubmitOutcome (β : Type)
  | raised (e : PoolError)
  | future (r : JobResult β)
deriving DecidableEq, Repr

/-- The `_jobs` map of a `SpinnerPool`: label to (resolved) future, in
insertion order. -/
structure PoolState (β : Type) where
  jobs : List (String × JobResult β)
deriving DecidableEq, Repr

/-- A fresh pool. -/
def PoolState.emptyP : PoolState β := { jobs := [] }

/-- The labels submitted so far. -/
def PoolState.labels (p : PoolState β) : List String := p.jobs.map Prod.fst

/-- `SpinnerPool.submit`: raise on a duplicate label before any state
change; otherwise start one spinner, schedule the runner and record its
future under the label. The middle component counts the spinners started
by the call. -/
def PoolState.submit (p : PoolState β) (label : String) (fn : JobFn α β)
    (args : List α) (kwargs : List (String × α)) :
    PoolState β × Nat × SubmitOutcome β :=
  if label ∈ p.labels then
    (p, 0, .raised (.duplicateLabel label))
  else
    let r := runJob fn args kwargs
    ({ jobs := p.jobs ++ [(label, r)] }, 1, .future r)

/-- The future recorded for a label. -/
def PoolState.lookupJob (p : PoolState β) (label : String) : Option (JobResult β) :=
  p.jobs.lookup label

/-- `SpinnerPool.wait_all`: collect every submitted job's result, keyed by
label (futures are stored resolved in this model, so collection reads them
off). -/
def PoolState.waitAll (p : PoolState β) : List (String × JobResult β) := p.jobs

/-- One job specification of `Spinner.run_jobs` / a `submit` call's
arguments: label, callable, positional and keyword arguments. -/
structure JobSpecM (α β : Type) where
  label : String
  fn : JobFn α β
  args : List α
  kwargs : List (String × α)

/-- Submit a batch of job specifications in order (a raising `submit`
leaves the pool unchanged, as the raise precedes any mutation). -/
def submitAll (p : PoolState β) (specs : List (JobSpecM α β)) : PoolState β :=
  specs.foldl (fun st sp => (st.submit sp.label sp.fn sp.args sp.kwargs).1) p

/-! ### Concrete fixtures used by witnesses -/

/-- A started, still-running pool spinner (supplier-driven, holding display
handle 0, keyed 7 in the controller). -/
def spRunning : SpinnerState :=
  { text := "job", msg := "Running: ", hasSupplier := true, startTime := none
    stopFlag := false, idx := 0, displayId := some 0, sid := 7 }

/-- A world in which `spRunning` is the sole registered and active spinner. -/
def wRunning : SpinnerWorld :=
  { spinner := spRunning
    display := (DisplayState.emptyD.register "l").1
    controller := [7] }

/-- A constructed-but-never-started spinner (no display handle), keyed 9. -/
def spFresh : SpinnerState :=
  { text := "job", msg := "Running: ", hasSupplier := false, startTime := none
    stopFlag := false, idx := 3, displayId := none, sid := 9 }

/-- A world in which `spFresh` was never started: it holds no display handle
and is absent from the controller, while some other display line exists. -/
def wFresh : SpinnerWorld :=
  { spinner := spFresh
    display := (DisplayState.emptyD.register "l").1
    controller := [] }

/-- A job callable that returns 42 on any arguments (the spec's job `A`). -/
def specA : JobSpecM Nat Nat :=
  { label := "A", fn := fun _ _ => .ok 42, args := [], kwargs := [] }

/-- A job callable that raises `RuntimeError("boom")` on any arguments (the
spec's job `B`). -/
def specB : JobSpecM Nat Nat :=
  { label := "B", fn := fun _ _ => .error { className := "RuntimeError", txt := "boom" }
    args := [], kwargs := [] }

/-- A pool that already recorded a completed job under label "A". -/
def poolA : PoolState Nat :=
  { jobs := [("A", { ok := true, result := some 1, error := none })] }

/-! ### Lemmas about elapsed-time arithmetic -/

/-- A nonpositive rational has a nonpositive ceiling. -/
lemma ceil_nonpos_of_nonpos {q : ℚ} (h : q ≤ 0) : ⌈q⌉ ≤ 0 :=
  Int.ceil_le.mpr (by exact_mod_cast h)

/-- Truncation toward zero is monotone. -/
lemma pythonInt_mono {q1 q2 : ℚ} (h : q1 ≤ q2) : pythonInt q1 ≤ pythonInt q2 := by
  unfold pythonInt
  by_cases h1 : 0 ≤ q1 <;> by_cases h2 : 0 ≤ q2 <;> simp [h1, h2]
  · exact Int.floor_le_floor h
  · exact absurd (le_trans h1 h) h2
  · exact le_trans (ceil_nonpos_of_nonpos (le_of_lt (not_le.mp h1))) (Int.floor_nonneg.mpr h2)
  · exact Int.ceil_le_ceil h

/-- The clamped truncated second count is monotone. -/
lemma elapsedSeconds_mono {q1 q2 : ℚ} (h : q1 ≤ q2) :
    elapsedSeconds q1 ≤ elapsedSeconds q2 := by
  unfold elapsedSeconds
  exact Int.toNat_le_toNat (max_le_max le_rfl (pythonInt_mono h))

/-- On a negative input the second count clamps to zero. -/
lemma elapsedSeconds_of_neg {q : ℚ} (h : q < 0) : elapsedSeconds q = 0 := by
  unfold elapsedSeconds pythonInt
  rw [if_neg (not_le.mpr h)]
  have hc : (⌈q⌉ : ℤ) ≤ 0 := ceil_nonpos_of_nonpos (le_of_lt h)
  omega

/-- On a natural-number input the second count is that number. -/
lemma elapsedSeconds_natCast (n : ℕ) : elapsedSeconds (n : ℚ) = n := by
  unfold elapsedSeconds pythonInt
  rw [if_pos (by positivity), Int.floor_natCast]
  omega

/-- At least an hour of input yields at least an hour of counted seconds. -/
lemma elapsedSeconds_ge_hour {q : ℚ} (h : (3600 : ℚ) ≤ q) :
    3600 ≤ elapsedSeconds q := by
  unfold elapsedSeconds pythonInt
  have h0 : (0 : ℚ) ≤ q := le_trans (by norm_num) h
  rw [if_pos h0]
  have : (3600 : ℤ) ≤ ⌊q⌋ := Int.le_floor.mpr (by exact_mod_cast h)
  omega

/-- Less than an hour of input yields less than an hour of counted seconds. -/
lemma elapsedSeconds_lt_hour {q : ℚ} (h : q < (3600 : ℚ)) :
    elapsedSeconds q < 3600 := by
  unfold elapsedSeconds pythonInt
  by_cases h0 : 0 ≤ q
  · rw [if_pos h0]
    have : (⌊q⌋ : ℤ) < 3600 := Int.floor_lt.mpr (by exact_mod_cast h)
    omega
  · rw [if_neg h0]
    have hc : (⌈q⌉ : ℤ) ≤ 0 := ceil_nonpos_of_nonpos (le_of_lt (not_le.mp h0))
    omega

/-- The formatter on a natural-number input renders exactly that second
count. -/
lemma formatElapsed_natCast (n : ℕ) : formatElapsed (n : ℚ) = formatSeconds n := by
  unfold formatElapsed
  rw [elapsedSeconds_natCast]

/-- With at least an hour counted, the rendered string is the
hours:minutes:seconds form. -/
lemma formatSeconds_eq_hms {t : Nat} (ht : 3600 ≤ t) :
    formatSeconds t =
      pad2 (t / 3600) ++ ":" ++ pad2 (t % 3600 / 60) ++ ":" ++ pad2 (t % 3600 % 60) := by
  unfold formatSeconds
  rw [if_pos (by omega)]

/-- With less than an hour counted, the rendered string is the
minutes:seconds form. -/
lemma formatSeconds_eq_ms {t : Nat} (ht : t < 3600) :
    formatSeconds t = pad2 (t % 3600 / 60) ++ ":" ++ pad2 (t % 3600 % 60) := by
  unfold formatSeconds
  rw [if_neg (by omega)]

/-- C6: the elapsed-time formatter counts non-negative integer seconds,
renders `HH:MM:SS` once at least an hour has elapsed and `MM:SS` otherwise,
clamps negative inputs to zero, and in particular maps 0 to "00:00", 59 to
"00:59", 60 to "01:00", 3661 to "01:01:01" and any negative input to
"00:00". -/
theorem format_elapsed_spec :
    (∀ q : ℚ, q < 0 → formatElapsed q = "00:00") ∧
    (∀ q : ℚ, (3600 : ℚ) ≤ q →
      ∃ h m s, 0 < h ∧ m < 60 ∧ s < 60 ∧
        elapsedSeconds q = 3600 * h + 60 * m + s ∧
        formatElapsed q = pad2 h ++ ":" ++ pad2 m ++ ":" ++ pad2 s) ∧
    (∀ q : ℚ, q < (3600 : ℚ) →
      ∃ m s, m < 60 ∧ s < 60 ∧ elapsedSeconds q = 60 * m + s ∧
        formatElapsed q = pad2 m ++ ":" ++ pad2 s) ∧
    formatElapsed 0 = "00:00" ∧ formatElapsed 59 = "00:59" ∧
    formatElapsed 60 = "01:00" ∧ formatElapsed 3661 = "01:01:01" := by
  have c0 : (0 : ℚ) = ((0 : ℕ) : ℚ) := by norm_num
  have c59 : (59 : ℚ) = ((59 : ℕ) : ℚ) := by norm_num
  have c60 : (60 : ℚ) = ((60 : ℕ) : ℚ) := by norm_num
  have c3661 : (3661 : ℚ) = ((3661 : ℕ) : ℚ) := by norm_num
  refine ⟨?_, ?_, ?_,
    by rw [c0, formatElapsed_natCast]; decide,
    by rw [c59, formatElapsed_natCast]; decide,
    by rw [c60, formatElapsed_natCast]; decide,
    by rw [c3661, formatElapsed_natCast]; decide⟩
  · intro q hq
    have h0 : elapsedSeconds q = 0 := elapsedSeconds_of_neg hq
    unfold formatElapsed
    rw [h0]; decide
  · intro q hq
    have ht := elapsedSeconds_ge_hour hq
    exact ⟨elapsedSeconds q / 3600, elapsedSeconds q % 3600 / 60,
      elapsedSeconds q % 3600 % 60, by omega, by omega, by omega, by omega,
      formatSeconds_eq_hms ht⟩
  · intro q hq
    have ht := elapsedSeconds_lt_hour hq
    exact ⟨elapsedSeconds q % 3600 / 60, elapsedSeconds q % 3600 % 60,
      by omega, by omega, by omega, formatSeconds_eq_ms ht⟩

/-- Witness for C6 at concrete inputs: the negative clamp at -7, the
`MM:SS` decomposition at 125 and the `HH:MM:SS` decomposition at 3661. -/
theorem format_elapsed_spec_witness :
    formatElapsed (-7) = "00:00" ∧
    (∃ m s, m < 60 ∧ s < 60 ∧ elapsedSeconds 125 = 60 * m + s ∧
      formatElapsed 125 = pad2 m ++ ":" ++ pad2 s) ∧
    (∃ h m s, 0 < h ∧ m < 60 ∧ s < 60 ∧
      elapsedSeconds 3661 = 3600 * h + 60 * m + s ∧
      formatElapsed 3661 = pad2 h ++ ":" ++ pad2 m ++ ":" ++ pad2 s) :=
  ⟨format_elapsed_spec.1 (-7) (by norm_num),
    format_elapsed_spec.2.2.1 125 (by norm_num),
    format_elapsed_spec.2.1 3661 (by norm_num)⟩

/-! ### Lemmas about the line map and the display invariant -/

/-- A key is absent from the line map exactly when lookup fails. -/
lemma lookupLine_eq_none_iff {m : LineMap} {k : Nat} :
    lookupLine m k = none ↔ k ∉ m.map Prod.fst := by
  induction m with
  | nil => simp [lookupLine]
  | cons p rest ih =>
    obtain ⟨k2, v2⟩ := p
    by_cases hk : k2 = k
    · subst hk; simp [lookupLine]
    · simp only [lookupLine, if_neg hk, List.map_cons, List.mem_cons]
      rw [ih]
      constructor
      · intro h1 h2
        rcases h2 with h2 | h2
        · exact hk h2.symm
        · exact h1 h2
      · intro h1 h2
        exact h1 (Or.inr h2)

/-- Assignment to a present key replaces in place, keeping the key list. -/
lemma setLine_fst_of_lookup_some {m : LineMap} {k : Nat} {v0 : String}
    (h : lookupLine m k = some v0) (v : String) :
    (setLine m k v).map Prod.fst = m.map Prod.fst := by
  induction m with
  | nil => simp [lookupLine] at h
  | cons p rest ih =>
    obtain ⟨k2, v2⟩ := p
    by_cases hk : k2 = k
    · simp [setLine, hk]
    · simp only [lookupLine, if_neg hk] at h
      simp [setLine, hk, ih h]

/-- Assignment to an absent key appends at the end. -/
lemma setLine_of_lookup_none {m : LineMap} {k : Nat}
    (h : lookupLine m k = none) (v : String) :
    setLine m k v = m ++ [(k, v)] := by
  induction m with
  | nil => simp [setLine]
  | cons p rest ih =>
    obtain ⟨k2, v2⟩ := p
    by_cases hk : k2 = k
    · simp only [lookupLine, if_pos hk] at h
      exact absurd h (Option.some_ne_none v2)
    · simp only [lookupLine, if_neg hk] at h
      simp [setLine, hk, ih h]

/-- The reachable-state invariant of the display: the line map's key list is
exactly the order list, and every registered handle is below the id
counter. -/
def displayInv (s : DisplayState) : Prop :=
  s.lines.map Prod.fst = s.order ∧ ∀ i ∈ s.order, i < s.nextId

/-- The initial display state satisfies the invariant. -/
lemma displayInv_emptyD : displayInv DisplayState.emptyD := by
  constructor <;> simp [DisplayState.emptyD]

/-- Every public display call preserves the invariant. -/
lemma displayInv_applyOp {s : DisplayState} (hs : displayInv s) (op : DisplayOp) :
    displayInv (applyOp s op) := by
  obtain ⟨hkeys, hlt⟩ := hs
  cases op with
  | register line =>
    have hfresh : lookupLine s.lines s.nextId = none := by
      rw [lookupLine_eq_none_iff, hkeys]
      intro hmem
      exact lt_irrefl s.nextId (hlt _ hmem)
    refine ⟨?_, ?_⟩
    · show (setLine s.lines s.nextId line).map Prod.fst = s.order ++ [s.nextId]
      rw [setLine_of_lookup_none hfresh]
      simp [hkeys]
    · show ∀ i ∈ s.order ++ [s.nextId], i < s.nextId + 1
      intro i hi
      rcases List.mem_append.mp hi with hi | hi
      · exact Nat.lt_succ_of_lt (hlt i hi)
      · simp at hi; omega
  | update sid line =>
    show displayInv (s.update sid line).1
    unfold DisplayState.update
    cases hl : lookupLine s.lines sid with
    | none => exact ⟨hkeys, hlt⟩
    | some v =>
      refine ⟨?_, hlt⟩
      show (setLine s.lines sid line).map Prod.fst = s.order
      rw [setLine_fst_of_lookup_some hl, hkeys]
  | release sid =>
    show displayInv (s.release sid)
    unfold DisplayState.release
    cases hl : lookupLine s.lines sid with
    | none => exact ⟨hkeys, hlt⟩
    | some v =>
      by_cases hc : s.activeCount - 1 = 0
      · simp only [hc, if_pos rfl]
        exact ⟨rfl, by simp⟩
      · simp only [if_neg hc]
        exact ⟨hkeys, hlt⟩

/-- The invariant holds after any call sequence from any invariant state. -/
lemma displayInv_applyOps {s : DisplayState} (hs : displayInv s)
    (ops : List DisplayOp) : displayInv (applyOps s ops) := by
  induction ops generalizing s with
  | nil => exact hs
  | cons op rest ih => exact ih (displayInv_applyOp hs op)

/-- C5: after any sequence of register/update/release calls on a fresh
display, a handle has a stored line in the line map exactly when it is in
the order list. -/
theorem display_key_sets_match (ops : List DisplayOp) (h : Nat) :
    h ∈ (applyOps DisplayState.emptyD ops).lines.map Prod.fst ↔
      h ∈ (applyOps DisplayState.emptyD ops).order := by
  rw [(displayInv_applyOps displayInv_emptyD ops).1]

/-! ### Handle freshness (the id counter) -/

/-- No display call ever decreases the id counter. -/
lemma nextId_le_applyOp (s : DisplayState) (op : DisplayOp) :
    s.nextId ≤ (applyOp s op).nextId := by
  cases op with
  | register line => exact Nat.le_succ s.nextId
  | update sid line =>
    show s.nextId ≤ (s.update sid line).1.nextId
    unfold DisplayState.update
    cases lookupLine s.lines sid <;> simp [renderLocked]
  | release sid =>
    show s.nextId ≤ (s.release sid).nextId
    unfold DisplayState.release
    cases lookupLine s.lines sid with
    | none => exact le_rfl
    | some v =>
      by_cases hc : s.activeCount - 1 = 0 <;> simp [hc]

/-- Every handle a call sequence hands out is at least the starting id
counter. -/
lemma registerIds_lb (s : DisplayState) (ops : List DisplayOp) :
    ∀ x ∈ registerIds s ops, s.nextId ≤ x := by
  induction ops generalizing s with
  | nil => simp [registerIds]
  | cons op rest ih =>
    intro x hx
    cases op with
    | register line =>
      simp only [registerIds] at hx
      rcases List.mem_cons.mp hx with hx | hx
      · rw [hx]; exact le_rfl
      · exact le_trans (nextId_le_applyOp s (.register line)) (ih _ x hx)
    | update sid line =>
      exact le_trans (nextId_le_applyOp s (.update sid line)) (ih _ x hx)
    | release sid =>
      exact le_trans (nextId_le_applyOp s (.release sid)) (ih _ x hx)

/-- C9: along any call sequence on a display, the handles returned by
successive `register` calls are pairwise strictly increasing — handles are
never reused, even after the line map and order list have been cleared. -/
theorem display_handles_strictly_increase (ops : List DisplayOp) :
    (registerIds DisplayState.emptyD ops).Pairwise (· < ·) := by
  suffices h : ∀ s : DisplayState, (registerIds s ops).Pairwise (· < ·) from
    h DisplayState.emptyD
  induction ops with
  | nil => intro s; simp [registerIds]
  | cons op rest ih =>
    intro s
    cases op with
    | register line =>
      refine List.Pairwise.cons ?_ (ih _)
      intro x hx
      have hlb := registerIds_lb (applyOp s (.register line)) rest x hx
      have hstep : (applyOp s (.register line)).nextId = s.nextId + 1 := rfl
      have hret : (s.register line).2.1 = s.nextId := rfl
      show (s.register line).2.1 < x
      omega
    | update sid line => exact ih _
    | release sid => exact ih _

/-! ### Update/release behaviour on individual handles -/

/-- After an assignment, looking up the assigned key yields the new value. -/
lemma lookupLine_setLine_self (m : LineMap) (k : Nat) (v : String) :
    lookupLine (setLine m k v) k = some v := by
  induction m with
  | nil => simp [setLine, lookupLine]
  | cons p rest ih =>
    obtain ⟨k2, v2⟩ := p
    by_cases hk : k2 = k
    · simp [setLine, hk, lookupLine]
    · simp [setLine, hk, lookupLine, ih]

/-- C3 counterexample: handle 0 is registered and then released while
handle 1 is still active; a subsequent `update(0, "x")` is NOT ignored —
the stored line changes from "a" to "x" and a redraw is triggered. -/
theorem display_update_after_release_counterexample :
    lookupLine (applyOps DisplayState.emptyD
        [.register "a", .register "b", .release 0]).lines 0 = some "a" ∧
    ((applyOps DisplayState.emptyD
        [.register "a", .register "b", .release 0]).update 0 "x").2.isSome = true ∧
    lookupLine ((applyOps DisplayState.emptyD
        [.register "a", .register "b", .release 0]).update 0 "x").1.lines 0 =
      some "x" := by
  decide

/-- C3 amended: `update` never raises; it is silently ignored (state
unchanged, no redraw) exactly when the handle is absent from the line map —
which after a release only happens once the release has emptied the active
set and cleared the map; while other handles remain registered, a released
handle's entry persists, and `update` on it replaces the stored line and
triggers a redraw. -/
theorem display_update_released_amended :
    (∀ (s : DisplayState) (sid : Nat) (line : String),
      lookupLine s.lines sid = none → s.update sid line = (s, none)) ∧
    (∀ (s : DisplayState) (sid : Nat) (line v : String),
      lookupLine s.lines sid = some v →
        lookupLine (s.update sid line).1.lines sid = some line ∧
        (s.update sid line).2.isSome = true) := by
  constructor
  · intro s sid line hl
    unfold DisplayState.update
    rw [hl]
  · intro s sid line v hl
    unfold DisplayState.update
    rw [hl]
    exact ⟨lookupLine_setLine_self s.lines sid line, rfl⟩

/-- Witness for C3 amended: update on an unknown handle of a fresh display
is ignored; update on a released-but-retained handle replaces the line. -/
theorem display_update_released_amended_witness :
    DisplayState.emptyD.update 5 "x" = (DisplayState.emptyD, none) ∧
    (lookupLine ((applyOps DisplayState.emptyD
        [.register "a", .register "b", .release 0]).update 0 "x").1.lines 0 =
          some "x" ∧
      ((applyOps DisplayState.emptyD
        [.register "a", .register "b", .release 0]).update 0 "x").2.isSome = true) :=
  ⟨display_update_released_amended.1 DisplayState.emptyD 5 "x" (by decide),
    display_update_released_amended.2
      (applyOps DisplayState.emptyD [.register "a", .register "b", .release 0])
      0 "x" "a" (by decide)⟩

/-- C4 counterexample: releasing handle 0 while handle 1 is still active
does NOT remove it — it still appears in the order list and the line map. -/
theorem display_release_keeps_entry_counterexample :
    0 ∈ (applyOps DisplayState.emptyD
        [.register "a", .register "b", .release 0]).order ∧
    lookupLine (applyOps DisplayState.emptyD
        [.register "a", .register "b", .release 0]).lines 0 = some "a" := by
  decide

/-- C4 amended: `release` on a registered handle decrements the active
count; only when the count thereby reaches zero does the display drop
entries — it then clears the whole order list and line map and resets the
last-written line count to zero so the next batch starts fresh; with other
spinners still active, the released handle's entry remains in both
structures and only the count changes. -/
theorem display_release_amended :
    ∀ (s : DisplayState) (sid : Nat) (v : String),
      lookupLine s.lines sid = some v →
        (s.activeCount ≤ 1 →
          s.release sid =
            { s with activeCount := 0, order := [], lines := [], lastLineCount := 0 }) ∧
        (2 ≤ s.activeCount →
          s.release sid = { s with activeCount := s.activeCount - 1 }) := by
  intro s sid v hl
  unfold DisplayState.release
  rw [hl]
  constructor
  · intro hc
    rw [if_pos (by omega)]
  · intro hc
    rw [if_neg (by omega)]

/-- Witness for C4 amended: releasing the sole active handle clears the
display and resets the line count; releasing one of two leaves the other
entry (and the released one) in place with only the count decremented. -/
theorem display_release_amended_witness :
    (applyOps DisplayState.emptyD [.register "a"]).release 0 =
      { applyOps DisplayState.emptyD [.register "a"] with
          activeCount := 0, order := [], lines := [], lastLineCount := 0 } ∧
    (applyOps DisplayState.emptyD [.register "a", .register "b"]).release 0 =
      { applyOps DisplayState.emptyD [.register "a", .register "b"] with
          activeCount :=
            (applyOps DisplayState.emptyD [.register "a", .register "b"]).activeCount - 1 } :=
  ⟨(display_release_amended (applyOps DisplayState.emptyD [.register "a"])
      0 "a" (by decide)).1 (by decide),
    (display_release_amended (applyOps DisplayState.emptyD [.register "a", .register "b"])
      0 "a" (by decide)).2 (by decide)⟩

/-! ### Spinner lifecycle lemmas -/

/-- Setting the stop event of an already-stopped spinner changes nothing. -/
lemma setStopFlag_of_stopped {sp : SpinnerState} (h : sp.stopFlag = true) :
    { sp with stopFlag := true } = sp := by
  cases sp
  simp_all

/-- The reading-independent part of the elapsed computation is monotone in
the reading: whether the source is the caller-supplied supplier or the wall
clock against the captured start instant, a larger reading never yields a
smaller elapsed value. -/
lemma currentElapsed_mono (sp : SpinnerState) {r1 r2 : ℚ} (h : r1 ≤ r2) :
    sp.currentElapsed r1 ≤ sp.currentElapsed r2 := by
  unfold SpinnerState.currentElapsed
  by_cases hs : sp.hasSupplier
  · simp only [hs, if_true]
    exact max_le_max le_rfl h
  · simp only [hs, if_false]
    cases sp.startTime with
    | none => exact le_rfl
    | some t => exact sub_le_sub_right h t

/-- `stop` always leaves the stop event set. -/
lemma stop_stopFlag (w : SpinnerWorld) (s : Bool) (e : Option ℚ) (r : ℚ) :
    (w.stop s e r).1.spinner.stopFlag = true := by
  unfold SpinnerWorld.stop
  cases hd : w.spinner.displayId <;> simp [hd]

/-- Re-setting the stop event of a world whose spinner is already stopped
rebuilds the same world. -/
lemma world_setStopFlag_eq (v : SpinnerWorld) (h : v.spinner.stopFlag = true) :
    ({ v with spinner := { v.spinner with stopFlag := true } } : SpinnerWorld) = v := by
  obtain ⟨sp, d, c⟩ := v
  simp only at h
  simp [setStopFlag_of_stopped h]

/-- A tick on a stopped spinner is a no-op. -/
lemma renderTick_of_stopped (w : SpinnerWorld) (h : w.spinner.stopFlag = true)
    (r : ℚ) : w.renderTick r = (w, none) := by
  unfold SpinnerWorld.renderTick
  cases hd : w.spinner.displayId with
  | none => rfl
  | some did => simp [h]

/-- `stop` on a spinner that holds no display handle and is absent from the
controller only sets the stop event: the display is untouched, the
controller removal is a silent no-op, and no line is pushed. -/
lemma stop_noop_of_detached (w : SpinnerWorld) (hid : w.spinner.displayId = none)
    (hsid : w.spinner.sid ∉ w.controller) (s : Bool) (e : Option ℚ) (r : ℚ) :
    w.stop s e r = ({ w with spinner := { w.spinner with stopFlag := true } }, none) := by
  obtain ⟨sp, d, c⟩ := w
  simp only at hid hsid
  unfold SpinnerWorld.stop
  simp only [hid, controllerRemove, List.erase_of_not_mem hsid]

/-- C7: for a started, running spinner, the first `stop` freezes the state —
it removes the spinner from the controller, pushes a final line whose icon
reflects `success` and whose elapsed time is the caller-supplied value when
one is given (the final line of a caller-timed stop does not depend on the
internal clock reading) and otherwise a fresh clock reading, and drops the
display handle — and every subsequent `stop`, with any arguments, is a
no-op returning the world unchanged and pushing nothing. -/
theorem spinner_stop_idempotent (w : SpinnerWorld) (did : Nat)
    (hid : w.spinner.displayId = some did) (hnd : w.controller.Nodup)
    (s1 : Bool) (e1 : Option ℚ) (r1 : ℚ) :
    w.spinner.sid ∉ (w.stop s1 e1 r1).1.controller ∧
    (w.stop s1 e1 r1).1.spinner.displayId = none ∧
    (w.stop s1 e1 r1).2 =
      some (formatFinalLine w.spinner (statusIcon s1)
        (formatElapsed (e1.getD (w.spinner.currentElapsed r1)))) ∧
    (∀ e r r2 : ℚ, w.stop s1 (some e) r = w.stop s1 (some e) r2) ∧
    (∀ (s2 : Bool) (e2 : Option ℚ) (r2 : ℚ),
      (w.stop s1 e1 r1).1.stop s2 e2 r2 = ((w.stop s1 e1 r1).1, none)) := by
  obtain ⟨sp, d, c⟩ := w
  simp only at hid hnd
  have hline : formatFinalLine { sp with stopFlag := true } =
      formatFinalLine sp := by
    funext i es
    simp [formatFinalLine]
  have helapsed : SpinnerState.currentElapsed { sp with stopFlag := true } =
      sp.currentElapsed := by
    funext r
    simp [SpinnerState.currentElapsed]
  refine ⟨?_, ?_, ?_, ?_, ?_⟩
  · show sp.sid ∉ (SpinnerWorld.stop ⟨sp, d, c⟩ s1 e1 r1).1.controller
    unfold SpinnerWorld.stop
    simp only [hid]
    intro hmem
    exact ((hnd.mem_erase_iff.mp hmem).1) rfl
  · unfold SpinnerWorld.stop
    simp only [hid]
  · unfold SpinnerWorld.stop
    simp only [hid, hline, helapsed]
    cases e1 <;> rfl
  · intro e r r2
    rfl
  · intro s2 e2 r2
    have h1 : (SpinnerWorld.stop ⟨sp, d, c⟩ s1 e1 r1).1.spinner.displayId = none := by
      unfold SpinnerWorld.stop
      simp only [hid]
    have h2 : (SpinnerWorld.stop ⟨sp, d, c⟩ s1 e1 r1).1.spinner.sid ∉
        (SpinnerWorld.stop ⟨sp, d, c⟩ s1 e1 r1).1.controller := by
      unfold SpinnerWorld.stop
      simp only [hid]
      intro hmem
      exact ((hnd.mem_erase_iff.mp hmem).1) rfl
    have h3 := stop_noop_of_detached _ h1 h2 s2 e2 r2
    rw [h3]
    have h4 : (SpinnerWorld.stop ⟨sp, d, c⟩ s1 e1 r1).1.spinner.stopFlag = true :=
      stop_stopFlag _ s1 e1 r1
    rw [world_setStopFlag_eq _ h4]

/-- Witness for C7: stopping the concrete running spinner removes it from
the controller and a second stop with different arguments changes
nothing. -/
theorem spinner_stop_idempotent_witness :
    wRunning.spinner.sid ∉ (wRunning.stop true (some 5) 1).1.controller ∧
    (wRunning.stop true (some 5) 1).1.stop false none 2 =
      ((wRunning.stop true (some 5) 1).1, none) :=
  ⟨(spinner_stop_idempotent wRunning 0 rfl (by decide) true (some 5) 1).1,
    (spinner_stop_idempotent wRunning 0 rfl (by decide) true (some 5) 1).2.2.2.2
      false none 2⟩

/-- C8: while a spinner runs (handle held, not stopped), each tick pushes
the running line rendered from the freshly read elapsed value, and the
displayed second count is monotonically non-decreasing in the source
reading; once `stop` has run, every further tick is a no-op, leaving the
world (and hence the displayed line) identical. -/
theorem spinner_tick_monotone_and_frozen (w : SpinnerWorld) (did : Nat)
    (hid : w.spinner.displayId = some did) (hrun : w.spinner.stopFlag = false) :
    (∀ r : ℚ, (w.renderTick r).2 =
      some (formatRunningLine w.spinner
        (FRAMES.getD (w.spinner.idx % FRAMES.length) "")
        (formatElapsed (w.spinner.currentElapsed r)))) ∧
    (∀ r1 r2 : ℚ, r1 ≤ r2 →
      elapsedSeconds (w.spinner.currentElapsed r1) ≤
        elapsedSeconds (w.spinner.currentElapsed r2)) ∧
    (∀ (s : Bool) (e : Option ℚ) (ra r : ℚ),
      (w.stop s e ra).1.renderTick r = ((w.stop s e ra).1, none)) := by
  refine ⟨?_, ?_, ?_⟩
  · intro r
    unfold SpinnerWorld.renderTick
    simp [hid, hrun]
  · intro r1 r2 h
    exact elapsedSeconds_mono (currentElapsed_mono w.spinner h)
  · intro s e ra r
    exact renderTick_of_stopped _ (stop_stopFlag w s e ra) r

/-- Witness for C8: on the concrete running spinner, readings 1 ≤ 2 yield
non-decreasing displayed seconds, and a tick after stop is a no-op. -/
theorem spinner_tick_monotone_and_frozen_witness :
    elapsedSeconds (wRunning.spinner.currentElapsed 1) ≤
      elapsedSeconds (wRunning.spinner.currentElapsed 2) ∧
    (wRunning.stop true none 3).1.renderTick 4 = ((wRunning.stop true none 3).1, none) :=
  ⟨(spinner_tick_monotone_and_frozen wRunning 0 rfl rfl).2.1 1 2 (by norm_num),
    (spinner_tick_monotone_and_frozen wRunning 0 rfl rfl).2.2 true none 3 4⟩

/-- C10: stopping a spinner that was never started raises nothing and
leaves the display and the controller unchanged — it pushes no final line,
releases no handle, and the controller removal is a silent no-op; only the
spinner's own stop event is set. -/
theorem stop_never_started_noop (w : SpinnerWorld)
    (hid : w.spinner.displayId = none) (hsid : w.spinner.sid ∉ w.controller)
    (s : Bool) (e : Option ℚ) (r : ℚ) :
    (w.stop s e r).1.display = w.display ∧
    (w.stop s e r).1.controller = w.controller ∧
    (w.stop s e r).2 = none ∧
    (w.stop s e r).1.spinner = { w.spinner with stopFlag := true } := by
  rw [stop_noop_of_detached w hid hsid s e r]
  exact ⟨rfl, rfl, rfl, rfl⟩

/-- Witness for C10: stopping the concrete never-started spinner leaves the
display and (empty) controller of its world untouched and pushes no
line. -/
theorem stop_never_started_noop_witness :
    (wFresh.stop false none 1).1.display = wFresh.display ∧
    (wFresh.stop false none 1).1.controller = wFresh.controller ∧
    (wFresh.stop false none 1).2 = none ∧
    (wFresh.stop false none 1).1.spinner = { wFresh.spinner with stopFlag := true } :=
  stop_never_started_noop wFresh rfl (by decide) false none 1

/-! ### Pool theorems -/

/-- C2: a second `submit` under an already-used label raises the
duplicate-label error, returns the pool state unchanged and starts no
spinner or worker task; in particular the future recorded for the first
job under that label is unaffected. -/
theorem pool_submit_duplicate {α β : Type} (p : PoolState β) (label : String)
    (fn : JobFn α β) (args : List α) (kwargs : List (String × α))
    (h : label ∈ p.labels) :
    p.submit label fn args kwargs = (p, 0, .raised (.duplicateLabel label)) ∧
    (p.submit label fn args kwargs).1.lookupJob label = p.lookupJob label := by
  unfold PoolState.submit
  rw [if_pos h]
  exact ⟨rfl, rfl⟩

/-- Witness for C2: resubmitting label "A" to the concrete pool raises the
duplicate error and hands back the pool unchanged with no spinner
started. -/
theorem pool_submit_duplicate_witness :
    poolA.submit "A" specA.fn specA.args specA.kwargs =
      (poolA, 0, .raised (.duplicateLabel "A")) :=
  (pool_submit_duplicate poolA "A" specA.fn specA.args specA.kwargs (by decide)).1

/-- Submitting a batch of distinct, previously unused labels appends each
job's runner result in order. -/
lemma submitAll_jobs {α β : Type} (p : PoolState β) (specs : List (JobSpecM α β))
    (hnd : (specs.map JobSpecM.label).Nodup)
    (hdisj : ∀ l ∈ specs.map JobSpecM.label, l ∉ p.labels) :
    (submitAll p specs).jobs =
      p.jobs ++ specs.map (fun sp => (sp.label, runJob sp.fn sp.args sp.kwargs)) := by
  induction specs generalizing p with
  | nil => simp [submitAll]
  | cons sp rest ih =>
    have hmem : sp.label ∉ p.labels := hdisj sp.label (by simp)
    have hstep : (p.submit sp.label sp.fn sp.args sp.kwargs).1 =
        { jobs := p.jobs ++ [(sp.label, runJob sp.fn sp.args sp.kwargs)] } := by
      unfold PoolState.submit
      rw [if_neg hmem]
    have hfold : submitAll p (sp :: rest) =
        submitAll (p.submit sp.label sp.fn sp.args sp.kwargs).1 rest := rfl
    rw [hfold, hstep]
    have hnd2 : (rest.map JobSpecM.label).Nodup := by
      simp only [List.map_cons, List.nodup_cons] at hnd
      exact hnd.2
    have hdisj2 : ∀ l ∈ rest.map JobSpecM.label,
        l ∉ (PoolState.labels (β := β)
          { jobs := p.jobs ++ [(sp.label, runJob sp.fn sp.args sp.kwargs)] }) := by
      intro l hl
      have hne : l ≠ sp.label := by
        simp only [List.map_cons, List.nodup_cons] at hnd
        intro he
        exact hnd.1 (he ▸ hl)
      have hnp : l ∉ p.labels := hdisj l (by simp [hl])
      have hlabels : (PoolState.labels (β := β)
          { jobs := p.jobs ++ [(sp.label, runJob sp.fn sp.args sp.kwargs)] }) =
          p.labels ++ [sp.label] := by
        simp [PoolState.labels]
      rw [hlabels]
      intro hin
      rcases List.mem_append.mp hin with hin | hin
      · exact hnp hin
      · simp at hin
        exact hne hin
    rw [ih _ hnd2 hdisj2]
    simp

/-- C1: the worker runner records, per job, success with the returned value
(and a null error) on normal return and failure with the exception's class
name and message (and a null result) on a raise; after submitting a batch
of distinctly-labelled jobs, `wait_all` yields exactly one entry per job,
keyed by label, carrying that runner result. -/
theorem pool_runner_and_waitAll {α β : Type} (specs : List (JobSpecM α β))
    (hnd : (specs.map JobSpecM.label).Nodup) :
    (∀ (fn : JobFn α β) (args : List α) (kwargs : List (String × α)) (v : β),
      fn args kwargs = Except.ok v →
        runJob fn args kwargs = { ok := true, result := some v, error := none }) ∧
    (∀ (fn : JobFn α β) (args : List α) (kwargs : List (String × α)) (e : PyExc),
      fn args kwargs = Except.error e →
        runJob fn args kwargs =
          { ok := false, result := none
            error := some { type := e.className, message := e.txt } }) ∧
    PoolState.waitAll (submitAll PoolState.emptyP specs) =
      specs.map (fun sp => (sp.label, runJob sp.fn sp.args sp.kwargs)) ∧
    (PoolState.waitAll (submitAll PoolState.emptyP specs)).length = specs.length := by
  have hw : PoolState.waitAll (submitAll PoolState.emptyP specs) =
      specs.map (fun sp => (sp.label, runJob sp.fn sp.args sp.kwargs)) := by
    have := submitAll_jobs PoolState.emptyP specs hnd
      (by intro l _; simp [PoolState.emptyP, PoolState.labels])
    unfold PoolState.waitAll
    rw [this]
    simp [PoolState.emptyP]
  refine ⟨?_, ?_, hw, by rw [hw]; simp⟩
  · intro fn args kwargs v h
    unfold runJob
    rw [h]
  · intro fn args kwargs e h
    unfold runJob
    rw [h]

/-- Witness for C1: a two-job batch — "A" returns 42 and "B" raises
`RuntimeError("boom")` — yields exactly the two labelled results the spec
prescribes. -/
theorem pool_runner_and_waitAll_witness :
    PoolState.waitAll (submitAll PoolState.emptyP [specA, specB]) =
      [("A", { ok := true, result := some 42, error := none }),
        ("B", { ok := false, result := none
                error := some { type := "RuntimeError", message := "boom" } })] := by
  rw [(pool_runner_and_waitAll [specA, specB] (by decide)).2.2.1]
  rfl

end ProtoUtils
